/-
  Verification of the LandXML viewer core (jackshitV3) against its
  natural-language specification.

  Shallow embedding of:
  - src/viewer/js/modules/crsManager.js        (origin / CRS manager)
  - src/viewer/js/modules/data transformation/XMLtoThree_Surface.js
  - src/viewer/js/modules/data transformation/xmlParser.js
  - src/viewer/js/modules/sceneData.js         (scene registry)
  - the file-upload handler (initFileHandler)

  Modelling conventions:
  - JavaScript numbers are modelled as exact rationals; NaN and the two
    infinities are modelled explicitly by the JSNum type where the code
    can actually produce them (the surface builder's centroid division).
  - JavaScript string truthiness (empty string is falsy) is modelled by
    jsOrStr / explicit emptiness tests.
  - The three.js library calls geometry.rotateX(-PI/2) and
    geometry.scale(1,1,-1) are modelled as the exact linear maps
    (x,y,z) -> (x,z,-y) and (x,y,z) -> (x,y,-z).
  - DOMParser.parseFromString (platform API) never raises; for input that
    is not well-formed markup it returns an error document whose root is
    a parsererror element carrying none of the LandXML content.  This is
    modelled by the DomDoc.errorDoc constructor.
-/
import Mathlib

set_option allowUnsafeReducibility true

attribute [local semireducible] Rat.add Rat.sub Rat.mul Rat.inv

namespace LandXMLViewer

/-! ## JavaScript number model

A JavaScript double, idealised: finite values are exact rationals,
NaN and the infinities are explicit constructors.  Only the operations
used by the embedded code are defined. -/

inductive JSNum where
  | num (q : ℚ)
  | nan
  | inf
  | ninf
deriving DecidableEq, Repr

namespace JSNum

/-- JavaScript addition. -/
def add : JSNum → JSNum → JSNum
  | num a, num b => num (a + b)
  | nan, _ => nan
  | _, nan => nan
  | inf, ninf => nan
  | ninf, inf => nan
  | inf, _ => inf
  | _, inf => inf
  | ninf, _ => ninf
  | _, ninf => ninf

/-- JavaScript subtraction. -/
def sub : JSNum → JSNum → JSNum
  | num a, num b => num (a - b)
  | nan, _ => nan
  | _, nan => nan
  | inf, inf => nan
  | ninf, ninf => nan
  | inf, _ => inf
  | _, inf => ninf
  | ninf, _ => ninf
  | _, ninf => inf

/-- JavaScript unary minus. -/
def neg : JSNum → JSNum
  | num a => num (-a)
  | nan => nan
  | inf => ninf
  | ninf => inf

/-- JavaScript division; in the embedded code the divisor is always a
finite value (a list length), so only those cases matter, but the
operation is total. 0/0 is NaN, x/0 for x positive is Infinity. -/
def div : JSNum → JSNum → JSNum
  | num a, num b =>
      if b = 0 then (if a = 0 then nan else if a > 0 then inf else ninf)
      else num (a / b)
  | nan, _ => nan
  | _, nan => nan
  | inf, inf => nan
  | inf, ninf => nan
  | ninf, inf => nan
  | ninf, ninf => nan
  | inf, num b => if b < 0 then ninf else inf
  | ninf, num b => if b < 0 then inf else ninf
  | num _, inf => num 0
  | num _, ninf => num 0

theorem neg_neg (a : JSNum) : a.neg.neg = a := by
  cases a <;> simp [neg]

end JSNum

/-- A triple of JavaScript numbers (a vertex or a position vector). -/
structure P3J where
  x : JSNum
  y : JSNum
  z : JSNum
deriving DecidableEq, Repr

/-- A raw survey-space point with finite coordinates
(x = northing, y = easting, z = elevation). -/
structure Point3 where
  x : ℚ
  y : ℚ
  z : ℚ
deriving DecidableEq, Repr

/-! ## JavaScript string helpers -/

/-- The JavaScript idiom "s || d": the first operand if it is a truthy
string (present and non-empty), otherwise the default. -/
def jsOrStr (o : Option String) (d : String) : String :=
  match o with
  | some s => if s = "" then d else s
  | none => d

/-- Splitter used by text.trim().split on runs of whitespace: chunks of
non-whitespace characters, accumulator-passing so the kernel can reduce
it. -/
def splitWsAux : List Char → List Char → List (List Char)
  | [], acc => if acc = [] then [] else [acc.reverse]
  | c :: rest, acc =>
      if c.isWhitespace then
        if acc = [] then splitWsAux rest []
        else acc.reverse :: splitWsAux rest []
      else splitWsAux rest (c :: acc)

/-- JavaScript text.trim().split on whitespace runs.  For an
all-whitespace input the JavaScript expression evaluates to a list
holding one empty string. -/
def jsSplitWs (s : String) : List String :=
  match splitWsAux s.data [] with
  | [] => [""]
  | chunks => chunks.map String.mk

/-- Value of a non-empty list of decimal digit characters. -/
def digitsVal : List Char → Option ℕ
  | [] => none
  | l => l.foldl (fun acc c =>
      acc.bind fun n => if c.isDigit then some (10 * n + (c.toNat - 48)) else none)
      (some 0)

/-- Value of a possibly-empty digit list, 0 when empty (so ".5" and "5."
both coerce). -/
def digitsVal0 (l : List Char) : ℕ :=
  (digitsVal l).getD 0

/-- JavaScript Number(token) coercion, restricted to the forms the
embedded code meets: optional sign, decimal digits with an optional
fractional part; the empty string coerces to 0; anything else is NaN
(None).  Exponent, hexadecimal and Infinity literals are not modelled;
no claim depends on them. -/
def jsNumber (s : String) : Option ℚ :=
  match s.data with
  | [] => some 0
  | l =>
    let (sgn, l2) : ℚ × List Char :=
      match l with
      | '-' :: r => (-1, r)
      | '+' :: r => (1, r)
      | _ => (1, l)
    let intPart := l2.takeWhile Char.isDigit
    let rest := l2.dropWhile Char.isDigit
    match rest with
    | [] => (digitsVal intPart).map fun n => sgn * (n : ℚ)
    | '.' :: frac =>
        if frac.all Char.isDigit ∧ (intPart ≠ [] ∨ frac ≠ []) then
          some (sgn * ((digitsVal0 intPart : ℚ) +
            (digitsVal0 frac : ℚ) / ((10 : ℚ) ^ frac.length)))
        else none
    | _ => none

/-! ## CoordinateSpace / CRS manager (crsManager.js)

Module state: the origin (Option Point3) and the per-file CRS entries
(an insertion-ordered map, as a JavaScript Map). -/

/-- Arithmetic centroid (per-axis mean) of a point list; only invoked on
non-empty lists by the code. -/
def centroid3 (pts : List Point3) : Point3 :=
  { x := (pts.map Point3.x).sum / pts.length,
    y := (pts.map Point3.y).sum / pts.length,
    z := (pts.map Point3.z).sum / pts.length }

/-- initOriginFromPoints (crsManager.js lines 479-495): first
registration wins; empty input is a no-op. -/
def initOriginFromPoints (origin : Option Point3) (rawPoints : List Point3) :
    Option Point3 :=
  match origin with
  | some o => some o
  | none =>
      if rawPoints.isEmpty then none
      else some (centroid3 rawPoints)

/-- resetOrigin (crsManager.js lines 506-509). -/
def resetOrigin (_origin : Option Point3) : Option Point3 := none

/-- applyOffset (crsManager.js lines 523-526). -/
def applyOffset (origin : Option Point3) (p : Point3) : Point3 :=
  match origin with
  | none => p
  | some o => { x := p.x - o.x, y := p.y - o.y, z := p.z - o.z }

/-- toWorldCoords (crsManager.js lines 536-543). -/
def toWorldCoords (origin : Option Point3) (p : Point3) : Point3 :=
  match origin with
  | none => p
  | some o => { x := p.x + o.x, y := p.y + o.y, z := p.z + o.z }

/-- One per-file CRS record: file key, derived display name
(info.CRS normalised through string truthiness to null), and the raw
attribute map. -/
structure CRSEntry where
  key : ℕ
  name : Option String
  info : List (String × String)
deriving DecidableEq, Repr

/-- Display-name normalisation used by setCRS: info.CRS || null. -/
def nameFromInfo (info : List (String × String)) : Option String :=
  match info.lookup "CRS" with
  | some s => if s = "" then none else some s
  | none => none

/-- setCRS (crsManager.js lines 433-439): Map.set semantics — replace in
place when the key exists, append otherwise. -/
def setCRS (entries : List CRSEntry) (fileKey : ℕ) (info : List (String × String)) :
    List CRSEntry :=
  let e : CRSEntry := { key := fileKey, name := nameFromInfo info, info := info }
  if entries.any (fun x => x.key == fileKey) then
    entries.map fun x => if x.key = fileKey then e else x
  else entries ++ [e]

/-- removeCRSForFile (crsManager.js lines 445-448). -/
def removeCRSForFile (entries : List CRSEntry) (fileKey : ℕ) : List CRSEntry :=
  entries.filter fun x => x.key != fileKey

/-- Insertion into a JavaScript Set (ordered, no duplicates). -/
def setInsert (l : List String) (s : String) : List String :=
  if s ∈ l then l else l ++ [s]

/-- One step of the getCRSName loop: a truthy name goes into the Set,
anything else is skipped (and flags hasMissing, tracked separately). -/
def crsStep (acc : List String) (e : CRSEntry) : List String :=
  match e.name with
  | some s => if s = "" then acc else setInsert acc s
  | none => acc

/-- The distinct truthy CRS names of the loaded files, in first-seen
order (the "names" Set of getCRSName). -/
def crsNames (entries : List CRSEntry) : List String :=
  entries.foldl crsStep []

/-- Whether some loaded file lacks a truthy CRS name (the "hasMissing"
flag of getCRSName). -/
def crsHasMissing (entries : List CRSEntry) : Bool :=
  entries.any fun e =>
    match e.name with
    | some s => s = ""
    | none => true

/-- getCRSName (crsManager.js lines 451-464). -/
def getCRSName (entries : List CRSEntry) : Option String :=
  if entries.isEmpty then none
  else
    match crsNames entries, crsHasMissing entries with
    | [], _ => some "No CRS"
    | [n], false => some n
    | _, _ => some "Mixed CRS"

/-- The reconciliation rule exactly as the specification words it:
null for no files; "No CRS" when every file lacks a name; the shared
name when all files are named identically; "Mixed CRS" otherwise. -/
def getCRSNameSpec (entries : List CRSEntry) : Option String :=
  match entries with
  | [] => none
  | e0 :: _ =>
      if entries.all (fun e => e.name.isNone) then some "No CRS"
      else if entries.all (fun e => e.name.isSome && e.name == e0.name) then e0.name
      else some "Mixed CRS"

/-! ## Surface mesh builder (XMLtoThree_Surface.js) -/

/-- A LandXML point element: the id attribute (null when absent) and the
text content. -/
structure PNode where
  id : Option String
  text : String
deriving DecidableEq, Repr

/-- A LandXML face element: the optional "i" (invisible) attribute and
the text content holding the three point-id references. -/
structure FNode where
  i : Option String
  text : String
deriving DecidableEq, Repr

/-- One Surface element: name attribute, desc / surfType attributes
(metadata only), point elements and face elements in document order. -/
structure SurfaceNode where
  name : Option String
  desc : Option String
  surfType : Option String
  points : List PNode
  faces : List FNode
deriving DecidableEq, Repr

/-- parseCoords (XMLtoThree_Surface.js lines 5-10): tokenize the trimmed
text on whitespace, coerce every token with Number, extend a 2-token
point with z = 0, and reject the whole point when any token is NaN. -/
def parseCoords (text : String) : Option (List ℚ) :=
  let parts := (jsSplitWs text).map jsNumber
  let parts := if parts.length = 2 then parts ++ [some 0] else parts
  if parts.any Option.isNone then none
  else some (parts.reduceOption)

/-- The point table is a JavaScript Map keyed by the id attribute. -/
abbrev PMap := List (Option String × List ℚ)

/-- Map.set: replace the entry in place when the key exists, append
otherwise. -/
def pmapSet (m : PMap) (k : Option String) (v : List ℚ) : PMap :=
  if m.any (fun e => e.1 == k) then
    m.map fun e => if e.1 = k then (k, v) else e
  else m ++ [(k, v)]

/-- Map.get, None when absent. -/
def pmapGet (m : PMap) (k : Option String) : Option (List ℚ) :=
  (m.find? fun e => e.1 == k).map (·.2)

/-- The point-collection loop (XMLtoThree_Surface.js lines 21-28):
points whose text fails parseCoords are silently dropped; the rest are
entered into the point table and appended (in document order) to
rawPoints. -/
def collectPoints (pts : List PNode) : PMap × List (List ℚ) :=
  pts.foldl (fun acc node =>
    match parseCoords node.text with
    | none => acc
    | some c => (pmapSet acc.1 node.id c, acc.2 ++ [c])) ([], [])

/-- JavaScript array destructuring [x, y, z] of a coordinate list:
a missing component is undefined and arithmetic on it yields NaN. -/
def jsGet (c : List ℚ) (i : ℕ) : JSNum :=
  match c.get? i with
  | some q => JSNum.num q
  | none => JSNum.nan

/-- Per-axis sum of the raw point list (the cx/cy/cz accumulation of
XMLtoThree_Surface.js lines 34-37). -/
def sumAt (raw : List (List ℚ)) (i : ℕ) : JSNum :=
  raw.foldl (fun a c => a.add (jsGet c i)) (JSNum.num 0)

/-- One component of the surface's own centroid: the accumulated sum
divided by rawPoints.length.  For an empty raw point list this is the
JavaScript division 0/0 = NaN. -/
def centroidAt (raw : List (List ℚ)) (i : ℕ) : JSNum :=
  (sumAt raw i).div (JSNum.num (raw.length : ℚ))

/-- The id tokens referenced by a face. -/
def faceIds (f : FNode) : List String :=
  jsSplitWs f.text

/-- A face survives the filter (XMLtoThree_Surface.js lines 44-50) iff it
is not flagged invisible, references exactly three ids, and every id is
present in the point table. -/
def faceKept (pm : PMap) (f : FNode) : Bool :=
  !(f.i == some "1") && (faceIds f).length == 3 &&
    (faceIds f).all fun id => (pmapGet pm (some id)).isSome

/-- The three centroid-relative vertices contributed by one kept face:
for each referenced coordinate list, (x - cx, y - cy, z - cz). -/
def faceVertices (pm : PMap) (cx cy cz : JSNum) (f : FNode) : List P3J :=
  ((faceIds f).filterMap fun id => pmapGet pm (some id)).map fun c =>
    { x := (jsGet c 0).sub cx, y := (jsGet c 1).sub cy, z := (jsGet c 2).sub cz }

/-- The face-collection loop (XMLtoThree_Surface.js lines 43-55),
producing the centroid-relative vertex triples pushed into vertexArray
in document order (each triple is three position components in the
buffer).  The three early returns of the loop body are the three guards
here. -/
def vertexTriples (pm : PMap) (cx cy cz : JSNum) : List FNode → List P3J
  | [] => []
  | f :: rest =>
      (if f.i == some "1" then []
       else if (faceIds f).length != 3 then []
       else if ((faceIds f).map fun id => pmapGet pm (some id)).any Option.isNone then []
       else faceVertices pm cx cy cz f) ++ vertexTriples pm cx cy cz rest

/-- geometry.rotateX(-PI/2) as the exact rotation. -/
def rotXneg90 (v : P3J) : P3J :=
  { x := v.x, y := v.z, z := v.y.neg }

/-- geometry.scale(1, 1, -1). -/
def scaleZneg (v : P3J) : P3J :=
  { x := v.x, y := v.y, z := v.z.neg }

/-- The geometry pipeline applied to every vertex of the buffer
(XMLtoThree_Surface.js lines 65-66). -/
def geomTransform (v : P3J) : P3J :=
  scaleZneg (rotXneg90 v)

/-- The axis permutation the code actually realises: render.x = raw.x
(northing), render.y = raw.z (elevation), render.z = raw.y (easting),
with no residual sign flip (the sign introduced by the rotation is
cancelled by the scale). -/
def permXZY (v : P3J) : P3J :=
  { x := v.x, y := v.z, z := v.y }

/-- The remap exactly as the specification words it: render.x = raw.y
(easting), render.y = raw.z (elevation), render.z = raw.x (northing),
followed by a z-axis sign flip. -/
def claimedRemap (v : P3J) : P3J :=
  { x := v.y, y := v.z, z := v.x.neg }

/-- Coordinate list to Point3 for the origin registration call.  Lists
reaching this call come from parseCoords; entries shorter than three
components (possible only for a single-token point text) are completed
with 0 here, a corner no claim depends on. -/
def listToP3 (c : List ℚ) : Point3 :=
  { x := c.getD 0 0, y := c.getD 1 0, z := c.getD 2 0 }

/-- The result of createSurfaceMesh: the mesh name, the raw (pre
transform) centroid-relative vertex triples, the transformed geometry
vertices, the raw centroid, the raw scene offset (dx, dy, dz) and the
mesh position actually set, the depth-bias index, the untouched raw
point list, and the origin state after the registration side effect. -/
structure BuiltSurface where
  meshName : String
  relTriples : List P3J
  vertices : List P3J
  centroid : P3J
  rawOffset : P3J
  position : P3J
  polygonOffsetFactor : ℕ
  rawPoints : List (List ℚ)
  originAfter : Option Point3
deriving Repr

/-- createSurfaceMesh (XMLtoThree_Surface.js lines 17-94), with the
module-level origin state passed explicitly. -/
def createSurfaceMesh (origin : Option Point3) (s : SurfaceNode)
    (surfaceIndex : ℕ) : BuiltSurface :=
  let surfaceName := jsOrStr s.name "LandXML_Surface"
  let pr := collectPoints s.points
  let pm := pr.1
  let rawPoints := pr.2
  let origin2 := initOriginFromPoints origin (rawPoints.map listToP3)
  let cx := centroidAt rawPoints 0
  let cy := centroidAt rawPoints 1
  let cz := centroidAt rawPoints 2
  let rel := vertexTriples pm cx cy cz s.faces
  let o := origin2.getD { x := 0, y := 0, z := 0 }
  let dx := cx.sub (JSNum.num o.x)
  let dy := cy.sub (JSNum.num o.y)
  let dz := cz.sub (JSNum.num o.z)
  { meshName := surfaceName,
    relTriples := rel,
    vertices := rel.map geomTransform,
    centroid := { x := cx, y := cy, z := cz },
    rawOffset := { x := dx, y := dy, z := dz },
    position := { x := dx, y := dz, z := dy },
    polygonOffsetFactor := surfaceIndex,
    rawPoints := rawPoints,
    originAfter := origin2 }

/-- Number of position components in the vertex buffer (three scalars
are pushed per vertex triple). -/
def numPositionComponents (b : BuiltSurface) : ℕ :=
  3 * b.relTriples.length

/-! ## Scene registry (sceneData.js)

Ids are modelled as the numeric counters behind the "file-n" / "obj-n"
strings (n -> "obj-" ++ n is injective, so freshness and uniqueness
transfer).  Callbacks are modelled as numeric handles; every operation
returns, besides its result, the list of (callback, snapshot) deliveries
it performs, in delivery order. -/

/-- An opaque render-resource handle: a three.js mesh as the registry
sees it (name and visibility flag). -/
structure MeshH where
  name : String
  visible : Bool
deriving DecidableEq, Repr

/-- A metadata mapping. -/
abbrev Meta := List (String × String)

/-- An object as passed into addFile: declared type, optional display
name, optional mesh handle, optional metadata. -/
structure InObj where
  type_ : Option String
  name : Option String
  mesh : Option MeshH
  metadata : Option Meta
deriving DecidableEq, Repr

/-- A registered scene object. -/
structure SceneObjE where
  id : ℕ
  name : String
  mesh : Option MeshH
  metadata : Meta
  visible : Bool
deriving DecidableEq, Repr

/-- The groups mapping of a file: type name to ordered object list, in
first-seen type order (JavaScript object key order). -/
abbrev Groups := List (String × List SceneObjE)

/-- A registered scene file. -/
structure SceneFileE where
  id : ℕ
  name : String
  metadata : Meta
  groups : Groups
deriving DecidableEq, Repr

/-- The registry module state: the file list, both id counters, and the
single onChange callback slot (note: a slot, not a list). -/
structure SceneState where
  files : List SceneFileE
  nextFileId : ℕ
  nextObjId : ℕ
  onChange : Option ℕ
deriving DecidableEq, Repr

/-- onStoreChange (sceneData.js lines 78-80): the new callback replaces
whatever was registered before. -/
def onStoreChange (s : SceneState) (cb : ℕ) : SceneState :=
  { s with onChange := some cb }

/-- notify (sceneData.js lines 82-84): at most one delivery, to the
currently registered callback, with the current file list. -/
def notifList (oc : Option ℕ) (files : List SceneFileE) : List (ℕ × List SceneFileE) :=
  match oc with
  | some cb => [(cb, files)]
  | none => []

/-- The ordered list of objects of one group (empty when the type has no
group yet). -/
def lookupGroup (gs : Groups) (t : String) : List SceneObjE :=
  ((gs.find? fun g => g.1 == t).map (·.2)).getD []

/-- Appending an object to its type group, creating the group at the end
when first seen (JavaScript object property insertion order). -/
def groupsInsert (gs : Groups) (t : String) (e : SceneObjE) : Groups :=
  match gs with
  | [] => [(t, [e])]
  | g :: rest => if g.1 = t then (g.1, g.2 ++ [e]) :: rest
                 else g :: groupsInsert rest t e

/-- The resolved type of an incoming object: obj.type || 'Other'. -/
def objType (o : InObj) : String :=
  jsOrStr o.type_ "Other"

/-- The entry built for one incoming object (sceneData.js lines
105-111): fresh id, name defaulting through obj.name, then the mesh
name, then "type k" with k the 1-based position in the group, metadata
defaulting to empty, visibility true. -/
def mkEntry (nid : ℕ) (o : InObj) (t : String) (groupLen : ℕ) : SceneObjE :=
  { id := nid,
    name := jsOrStr o.name
      (jsOrStr (o.mesh.map MeshH.name) (t ++ " " ++ toString (groupLen + 1))),
    mesh := o.mesh,
    metadata := o.metadata.getD [],
    visible := true }

/-- The object-registration loop of addFile (sceneData.js lines
101-114), threading the groups under construction and the object-id
counter. -/
def processObjs (objs : List InObj) (gs : Groups) (n : ℕ) : Groups × ℕ :=
  match objs with
  | [] => (gs, n)
  | o :: rest =>
      let t := objType o
      let e := mkEntry n o t (lookupGroup gs t).length
      processObjs rest (groupsInsert gs t e) (n + 1)

/-- addFile (sceneData.js lines 93-119).  Returns the created file
entry, the new state, and the notification deliveries (exactly one when
a callback is registered, carrying the file list with the new file and
all its objects already present). -/
def addFile (s : SceneState) (fileName : String) (objs : List InObj)
    (fileMeta : Meta) : SceneFileE × SceneState × List (ℕ × List SceneFileE) :=
  let pr := processObjs objs [] s.nextObjId
  let fe : SceneFileE :=
    { id := s.nextFileId, name := fileName, metadata := fileMeta, groups := pr.1 }
  let files2 := s.files ++ [fe]
  (fe,
   { files := files2, nextFileId := s.nextFileId + 1, nextObjId := pr.2,
     onChange := s.onChange },
   notifList s.onChange files2)

/-- removeFile (sceneData.js lines 122-125). -/
def removeFile (s : SceneState) (fileId : ℕ) :
    SceneState × List (ℕ × List SceneFileE) :=
  let files2 := s.files.filter fun f => f.id != fileId
  ({ s with files := files2 }, notifList s.onChange files2)

/-- findFile (sceneData.js lines 128-130). -/
def findFile (s : SceneState) (fileId : ℕ) : Option SceneFileE :=
  s.files.find? fun f => f.id == fileId

/-- findObject (sceneData.js lines 133-141). -/
def findObject (s : SceneState) (objId : ℕ) : Option SceneObjE :=
  s.files.findSome? fun f =>
    f.groups.findSome? fun g => g.2.find? fun o => o.id == objId

/-- toggleVisibility (sceneData.js lines 144-151): undefined and no
notification for an unknown id; otherwise the flag is flipped, mirrored
onto the mesh when present, one notification goes out and the new flag
is returned.  Object ids are unique (they come from one monotone
counter), so updating every entry bearing the id coincides with the
JavaScript in-place mutation of the found object. -/
def toggleVisibility (s : SceneState) (objId : ℕ) :
    Option Bool × SceneState × List (ℕ × List SceneFileE) :=
  match findObject s objId with
  | none => (none, s, [])
  | some obj =>
      let nv := !obj.visible
      let files2 := s.files.map fun f =>
        { f with groups := f.groups.map fun g =>
            (g.1, g.2.map fun o =>
              if o.id = objId then
                { o with visible := nv, mesh := o.mesh.map fun m => { m with visible := nv } }
              else o) }
      (some nv, { s with files := files2 }, notifList s.onChange files2)

/-- getFiles (sceneData.js lines 154-156). -/
def getFiles (s : SceneState) : List SceneFileE :=
  s.files

/-! ## LandXML document parser (xmlParser.js) and file handler

DOMParser.parseFromString is a platform API: it never raises.  For
markup that is not well-formed it returns an error document whose root
is a parsererror element; element queries against that document find no
CoordinateSystem, Project, Application, Units or Surface elements and
the root carries no LandXML attributes.  DomDoc.errorDoc is the image of
every malformed input string under that API. -/

/-- The CoordinateSystem element's attributes. -/
structure CrsNode where
  desc : Option String
  horizontalDatum : Option String
  verticalDatum : Option String
  datum : Option String
  hcsName : Option String
  rotationAngle : Option String
deriving DecidableEq, Repr

/-- The parts of a parsed LandXML document the core reads.  The Project,
Application and Units metadata blocks are mechanical attribute copies no
claim touches and are left out of the model. -/
structure XmlRoot where
  version : Option String
  date : Option String
  time : Option String
  crsNode : Option CrsNode
  surfaces : List SurfaceNode
deriving Repr

/-- Outcome of DOMParser.parseFromString. -/
inductive DomDoc where
  | errorDoc
  | doc (root : XmlRoot)
deriving Repr

/-- Append a metadata key when the attribute is present and truthy. -/
def metaAdd (m : Meta) (key : String) (v : Option String) : Meta :=
  match v with
  | some s => if s = "" then m else m ++ [(key, s)]
  | none => m

/-- File-level metadata assembly (xmlParser.js lines 9-28): root
attributes, then the CoordinateSystem attributes; every key is emitted
only when the attribute is present. -/
def fileMetaOf (d : DomDoc) : Meta :=
  match d with
  | .errorDoc => []
  | .doc r =>
      let m : Meta := []
      let m := metaAdd m "LandXML Version" r.version
      let date := (r.date.getD "")
      let time := (r.time.getD "")
      let m := if date ≠ "" ∨ time ≠ "" then
          m ++ [("Date", String.intercalate " "
            (([date, time]).filter fun s => s ≠ ""))]
        else m
      match r.crsNode with
      | none => m
      | some c =>
          let m := metaAdd m "CRS" c.desc
          let m := metaAdd m "Horizontal Datum" c.horizontalDatum
          let m := metaAdd m "Vertical Datum" c.verticalDatum
          let m := metaAdd m "Datum" c.datum
          let m := metaAdd m "Coordinate System" c.hcsName
          metaAdd m "Rotation Angle" c.rotationAngle

/-- CRS attribute extraction (xmlParser.js lines 58-63): the subset of
fileMeta keys relevant to the CRS registry. -/
def crsAttrsOf (m : Meta) : Meta :=
  let pick (k : String) (acc : Meta) : Meta :=
    match m.lookup k with
    | some v => acc ++ [(k, v)]
    | none => acc
  pick "Coordinate System" (pick "Datum" (pick "Vertical Datum"
    (pick "Horizontal Datum" (pick "CRS" []))))

/-- The metadata record assembled for one surface (xmlParser.js lines
88-94).  The bounding-box range strings (toFixed formatting) are not
modelled; no claim depends on them. -/
def surfaceMeta (s : SurfaceNode) (b : BuiltSurface) : Meta :=
  [("description", s.desc.getD ""),
   ("Surface Type", s.surfType.getD ""),
   ("vertices", toString b.vertices.length),
   ("triangles", toString (b.vertices.length / 3))]

/-- The per-surface loop of loadLandXML (xmlParser.js lines 68-96):
0-based index, mesh build (whose origin side effect threads through),
display name defaulting to "Surface i+1", and the object record pushed
for the registry. -/
def buildObjects (origin : Option Point3) (ss : List SurfaceNode) (i : ℕ) :
    List InObj × Option Point3 :=
  match ss with
  | [] => ([], origin)
  | s :: rest =>
      let b := createSurfaceMesh origin s i
      let name := jsOrStr s.name ("Surface " ++ toString (i + 1))
      let o : InObj :=
        { type_ := some "Surface", name := some name,
          mesh := some { name := name, visible := true },
          metadata := some (surfaceMeta s b) }
      let pr := buildObjects b.originAfter rest (i + 1)
      (o :: pr.1, pr.2)

/-- The value loadLandXML returns. -/
structure LoadRes where
  fileMeta : Meta
  objects : List InObj
  crsAttrs : Meta
deriving DecidableEq, Repr

/-- loadLandXML (xmlParser.js lines 4-101), with the origin state passed
explicitly.  The body contains no throw and DOMParser never raises, so
the function always returns ok — including for the error document, where
every element query comes back empty. -/
def loadLandXML (origin : Option Point3) (d : DomDoc) (_fileName : String) :
    Except String LoadRes × Option Point3 :=
  let fileMeta := fileMetaOf d
  let crsAttrs := crsAttrsOf fileMeta
  let surfaces := match d with
    | .errorDoc => []
    | .doc r => r.surfaces
  let pr := buildObjects origin surfaces 0
  (Except.ok { fileMeta := fileMeta, objects := pr.1, crsAttrs := crsAttrs }, pr.2)

/-- The whole-application state the upload handler touches. -/
structure AppState where
  reg : SceneState
  crs : List CRSEntry
  origin : Option Point3
  status : String
deriving Repr

/-- The file-uploaded branch of initFileHandler (part_004 lines 20-33):
load, add every object's mesh to the scene (render boundary, not
modelled), register the file, register its CRS attributes under the new
file id, and report a status line; a thrown error would instead leave
the registry untouched and report an error status. -/
def handleFileUpload (st : AppState) (name : String) (d : DomDoc) : AppState :=
  match loadLandXML st.origin d name with
  | (Except.ok r, origin2) =>
      let pr := addFile st.reg name r.objects r.fileMeta
      let crs2 := setCRS st.crs pr.1.id r.crsAttrs
      { reg := pr.2.1, crs := crs2, origin := origin2,
        status := "Loaded " ++ name ++ " (" ++ toString r.objects.length ++
          " surface" ++ (if r.objects.length ≠ 1 then "s" else "") ++ ")" }
  | (Except.error _, origin2) =>
      { st with origin := origin2, status := "Error loading " ++ name }

/-! ## Theorems -/

theorem geomTransform_eq_permXZY : geomTransform = permXZY := by
  funext v
  cases v with
  | mk x y z => simp [geomTransform, rotXneg90, scaleZneg, permXZY, JSNum.neg_neg]

/-- C1 (amended): the raw-survey-to-render remap realised by
createSurfaceMesh is render.x = raw.x (northing), render.y = raw.z
(elevation), render.z = raw.y (easting), with no residual sign flip
(the z-axis sign introduced by rotateX(-PI/2) is cancelled by
scale(1,1,-1)), and this identical remap is applied both to the
per-vertex local-centroid-relative position data and to the mesh
placement offset (localCentroid - globalOrigin). -/
theorem c1_axis_remap (origin : Option Point3) (s : SurfaceNode) (i : ℕ) :
    (createSurfaceMesh origin s i).vertices
      = (createSurfaceMesh origin s i).relTriples.map permXZY
    ∧ (createSurfaceMesh origin s i).position
      = permXZY (createSurfaceMesh origin s i).rawOffset := by
  refine ⟨?_, rfl⟩
  show ((vertexTriples _ _ _ _ _).map geomTransform) = _
  rw [geomTransform_eq_permXZY]
  rfl

/-- C1 counterexample: for the surface with points 1 -> (3,0,0),
2 -> (0,0,0), 3 -> (0,0,0) and the single face 1 2 3, the first
geometry vertex the code emits is the centroid-relative (2,0,0) kept
as-is, while the remap stated by the specification (easting, elevation,
minus northing) would send it to (0,0,-2). -/
theorem c1_counterexample :
    (createSurfaceMesh none
      { name := none, desc := none, surfType := none,
        points := [{ id := some "1", text := "3 0 0" },
                   { id := some "2", text := "0 0 0" },
                   { id := some "3", text := "0 0 0" }],
        faces := [{ i := none, text := "1 2 3" }] } 0).vertices.head?
    ≠ ((createSurfaceMesh none
      { name := none, desc := none, surfType := none,
        points := [{ id := some "1", text := "3 0 0" },
                   { id := some "2", text := "0 0 0" },
                   { id := some "3", text := "0 0 0" }],
        faces := [{ i := none, text := "1 2 3" }] } 0).relTriples.map
          claimedRemap).head? := by
  decide

/-- C5: initOriginFromPoints sets the origin to the arithmetic centroid
of a non-empty point set only when no origin is set; it is a no-op when
the origin is already set or the input is empty, and a second call
leaves the origin at the value of the first successful call
(first-wins idempotence). -/
theorem c5_origin_first_wins (pts pts2 : List Point3) (o : Point3)
    (h : pts ≠ []) :
    initOriginFromPoints none pts = some (centroid3 pts)
    ∧ initOriginFromPoints (some o) pts = some o
    ∧ initOriginFromPoints (some o) [] = some o
    ∧ initOriginFromPoints none [] = none
    ∧ initOriginFromPoints (initOriginFromPoints none pts) pts2
        = initOriginFromPoints none pts := by
  have hne : pts.isEmpty = false := by
    cases pts with
    | nil => exact absurd rfl h
    | cons a l => rfl
  simp [initOriginFromPoints, hne]

theorem c5_origin_first_wins_witness :
    ([⟨1, 2, 3⟩] : List Point3) ≠ []
    ∧ (initOriginFromPoints none [⟨1, 2, 3⟩] = some (centroid3 [⟨1, 2, 3⟩])
      ∧ initOriginFromPoints (some ⟨7, 8, 9⟩) [⟨1, 2, 3⟩] = some ⟨7, 8, 9⟩
      ∧ initOriginFromPoints (some ⟨7, 8, 9⟩) [] = some ⟨7, 8, 9⟩
      ∧ initOriginFromPoints none [] = none
      ∧ initOriginFromPoints (initOriginFromPoints none [⟨1, 2, 3⟩]) [⟨4, 5, 6⟩]
          = initOriginFromPoints none [⟨1, 2, 3⟩]) :=
  ⟨by decide, c5_origin_first_wins [⟨1, 2, 3⟩] [⟨4, 5, 6⟩] ⟨7, 8, 9⟩ (by decide)⟩

/-- C6: before an origin is set applyOffset is the identity; after an
origin is set it subtracts the origin component-wise; and in both states
toWorldCoords undoes applyOffset. -/
theorem c6_offset_roundtrip (p o : Point3) :
    applyOffset none p = p
    ∧ applyOffset (some o) p = ⟨p.x - o.x, p.y - o.y, p.z - o.z⟩
    ∧ toWorldCoords none (applyOffset none p) = p
    ∧ toWorldCoords (some o) (applyOffset (some o) p) = p := by
  cases p with
  | mk px py pz =>
      cases o with
      | mk ox oy oz => simp [applyOffset, toWorldCoords]

/-- C10: when every point entry of a surface is invalid or absent, the
build still completes and returns a mesh, but the local-centroid
division is the JavaScript 0/0, so the centroid components and hence all
three mesh placement position components are NaN. -/
theorem c10_empty_surface_nan (origin : Option Point3) (s : SurfaceNode)
    (i : ℕ) (h : (collectPoints s.points).2 = []) :
    (createSurfaceMesh origin s i).centroid
        = ⟨JSNum.nan, JSNum.nan, JSNum.nan⟩
    ∧ (createSurfaceMesh origin s i).position
        = ⟨JSNum.nan, JSNum.nan, JSNum.nan⟩
    ∧ (createSurfaceMesh origin s i).meshName = jsOrStr s.name "LandXML_Surface" := by
  cases origin <;>
    simp [createSurfaceMesh, h, centroidAt, sumAt, JSNum.div, JSNum.sub,
      initOriginFromPoints]

theorem c10_empty_surface_nan_witness :
    ((collectPoints ([{ id := some "1", text := "a b c" }] : List PNode)).2 = [])
    ∧ ((createSurfaceMesh none
        { name := none, desc := none, surfType := none,
          points := [{ id := some "1", text := "a b c" }], faces := [] } 0).centroid
          = ⟨JSNum.nan, JSNum.nan, JSNum.nan⟩
      ∧ (createSurfaceMesh none
        { name := none, desc := none, surfType := none,
          points := [{ id := some "1", text := "a b c" }], faces := [] } 0).position
          = ⟨JSNum.nan, JSNum.nan, JSNum.nan⟩
      ∧ (createSurfaceMesh none
        { name := none, desc := none, surfType := none,
          points := [{ id := some "1", text := "a b c" }], faces := [] } 0).meshName
          = jsOrStr none "LandXML_Surface") :=
  ⟨by decide, c10_empty_surface_nan none _ 0 (by decide)⟩

theorem any_map_isNone_eq_not_all {α β : Type _} (g : α → Option β) (l : List α) :
    (l.map g).any Option.isNone = !(l.all fun a => (g a).isSome) := by
  induction l with
  | nil => rfl
  | cons a l ih => cases hga : g a <;> simp [hga, ih]

theorem all_isSome_length_filterMap {α β : Type _} (g : α → Option β) (l : List α)
    (h : (l.all fun a => (g a).isSome) = true) : (l.filterMap g).length = l.length := by
  induction l with
  | nil => rfl
  | cons a l ih =>
      rw [List.all_cons, Bool.and_eq_true] at h
      obtain ⟨b, hb⟩ := Option.isSome_iff_exists.mp h.1
      simp [List.filterMap_cons, hb, ih h.2]

theorem faceKept_eq_guards (pm : PMap) (f : FNode) :
    faceKept pm f = (!(f.i == some "1") && !((faceIds f).length != 3)
      && !(((faceIds f).map fun id => pmapGet pm (some id)).any Option.isNone)) := by
  simp only [faceKept, any_map_isNone_eq_not_all, bne, Bool.not_not]

theorem faceVertices_length (pm : PMap) (cx cy cz : JSNum) (f : FNode)
    (h3 : ((faceIds f).length != 3) = false)
    (hall : (((faceIds f).map fun id => pmapGet pm (some id)).any Option.isNone) = false) :
    (faceVertices pm cx cy cz f).length = 3 := by
  have h3a : (faceIds f).length = 3 := by simpa using h3
  have halla : ((faceIds f).all fun id => (pmapGet pm (some id)).isSome) = true := by
    cases hh : ((faceIds f).all fun id => (pmapGet pm (some id)).isSome)
    · rw [any_map_isNone_eq_not_all, hh] at hall
      exact absurd hall (by simp)
    · rfl
  unfold faceVertices
  rw [List.length_map, all_isSome_length_filterMap _ _ halla, h3a]

theorem vertexTriples_length (pm : PMap) (cx cy cz : JSNum) (faces : List FNode) :
    (vertexTriples pm cx cy cz faces).length = 3 * faces.countP (faceKept pm) := by
  induction faces with
  | nil => rfl
  | cons f rest ih =>
      rw [vertexTriples, List.length_append, ih, List.countP_cons, faceKept_eq_guards]
      cases hg1 : (f.i == some "1") <;>
        cases hg2 : ((faceIds f).length != 3) <;>
        cases hg3 : (((faceIds f).map fun id => pmapGet pm (some id)).any Option.isNone) <;>
        simp [hg1, hg2, hg3, Nat.mul_add]
      rw [faceVertices_length pm cx cy cz f hg2 hg3]
      ring

theorem vertexTriples_append_excluded (pm : PMap) (cx cy cz : JSNum)
    (faces : List FNode) (f0 : FNode) (h : faceKept pm f0 = false) :
    vertexTriples pm cx cy cz (faces ++ [f0]) = vertexTriples pm cx cy cz faces := by
  induction faces with
  | nil =>
      rw [faceKept_eq_guards] at h
      simp only [List.nil_append, vertexTriples]
      cases hg1 : (f0.i == some "1") <;>
        cases hg2 : ((faceIds f0).length != 3) <;>
        cases hg3 : (((faceIds f0).map fun id => pmapGet pm (some id)).any Option.isNone) <;>
        simp only [hg1, hg2, hg3, Bool.not_false, Bool.not_true, Bool.and_self,
          Bool.and_false, Bool.and_true, Bool.true_and, Bool.false_and] at h ⊢ <;>
        simp [h]
  | cons f rest ih =>
      simp only [List.cons_append, vertexTriples, List.append_eq]
      rw [ih]

/-- C7: a face contributes zero vertices, without failing the build,
exactly when it is flagged invisible, does not reference exactly three
point ids, or references an id missing from the point table: the buffer
holds 9 position components per kept face (so 3 triples each), appending
an excluded face changes nothing, and the concrete surface with 4 valid
points and 2 valid triangular faces yields exactly 18 position
components. -/
theorem c7_face_filtering (origin : Option Point3) (s : SurfaceNode) (i : ℕ)
    (pm : PMap) (cx cy cz : JSNum) (faces : List FNode) (f0 : FNode)
    (h : faceKept pm f0 = false) :
    numPositionComponents (createSurfaceMesh origin s i)
        = 9 * s.faces.countP (faceKept (collectPoints s.points).1)
    ∧ vertexTriples pm cx cy cz (faces ++ [f0]) = vertexTriples pm cx cy cz faces
    ∧ numPositionComponents (createSurfaceMesh none
        { name := some "S", desc := none, surfType := none,
          points := [{ id := some "1", text := "0 0 0" },
                     { id := some "2", text := "1 0 0" },
                     { id := some "3", text := "0 1 0" },
                     { id := some "4", text := "1 1 0" }],
          faces := [{ i := none, text := "1 2 3" },
                    { i := none, text := "2 3 4" }] } 0) = 18 := by
  refine ⟨?_, vertexTriples_append_excluded pm cx cy cz faces f0 h, by decide⟩
  show 3 * (vertexTriples _ _ _ _ _).length = _
  rw [vertexTriples_length]
  ring

theorem c7_face_filtering_witness :
    (faceKept [(some "1", [0, 0, 0])] { i := some "1", text := "1 1 1" } = false)
    ∧ (numPositionComponents (createSurfaceMesh none
        { name := none, desc := none, surfType := none,
          points := [{ id := some "1", text := "0 0 0" }],
          faces := [{ i := none, text := "1 1 1" }] } 0)
          = 9 * ([({ i := none, text := "1 1 1" } : FNode)].countP
              (faceKept (collectPoints [({ id := some "1", text := "0 0 0" } : PNode)]).1))
      ∧ vertexTriples [(some "1", [0, 0, 0])] (JSNum.num 0) (JSNum.num 0) (JSNum.num 0)
          ([] ++ [{ i := some "1", text := "1 1 1" }])
          = vertexTriples [(some "1", [0, 0, 0])] (JSNum.num 0) (JSNum.num 0) (JSNum.num 0) []
      ∧ numPositionComponents (createSurfaceMesh none
        { name := some "S", desc := none, surfType := none,
          points := [{ id := some "1", text := "0 0 0" },
                     { id := some "2", text := "1 0 0" },
                     { id := some "3", text := "0 1 0" },
                     { id := some "4", text := "1 1 0" }],
          faces := [{ i := none, text := "1 2 3" },
                    { i := none, text := "2 3 4" }] } 0) = 18) :=
  ⟨by decide, c7_face_filtering none
    { name := none, desc := none, surfType := none,
      points := [{ id := some "1", text := "0 0 0" }],
      faces := [{ i := none, text := "1 1 1" }] } 0
    [(some "1", [0, 0, 0])] (JSNum.num 0) (JSNum.num 0) (JSNum.num 0) []
    { i := some "1", text := "1 1 1" } (by decide)⟩

/-- C8: point parsing tokenizes on whitespace and coerces each token to
a number: the 2-token text "10 20" parses to (10, 20, 0), the text
"a b c" fails numeric coercion, and a point whose text fails to parse is
dropped from the point table and raw point list rather than raising an
error. -/
theorem c8_point_parsing (pts : List PNode) (node : PNode)
    (h : parseCoords node.text = none) :
    parseCoords "10 20" = some [10, 20, 0]
    ∧ parseCoords "a b c" = none
    ∧ collectPoints (pts ++ [node]) = collectPoints pts := by
  refine ⟨by decide, by decide, ?_⟩
  unfold collectPoints
  rw [List.foldl_append]
  simp [h]

theorem c8_point_parsing_witness :
    (parseCoords ("a b c" : String) = none)
    ∧ (parseCoords "10 20" = some [10, 20, 0]
      ∧ parseCoords "a b c" = none
      ∧ collectPoints ([{ id := some "1", text := "0 0 0" }] ++
          [{ id := some "2", text := "a b c" }])
          = collectPoints [{ id := some "1", text := "0 0 0" }]) :=
  ⟨by decide, c8_point_parsing [{ id := some "1", text := "0 0 0" }]
    { id := some "2", text := "a b c" } (by decide)⟩

/-- C2 (code bug): for markup that is not well-formed,
DOMParser.parseFromString returns an error document instead of raising,
loadLandXML never inspects it for a parsererror and returns a normal
result with zero objects, and the file handler then mutates the Scene
Registry (one file entry is added) and reports a successful load —
against the specified behaviour of failing with a parse error and
leaving the registry unchanged.  Evaluated at the failure input: the
error document, the image of any malformed documentText such as
"<LandXML". -/
theorem c2_malformed_not_rejected :
    (loadLandXML none DomDoc.errorDoc "bad.xml").1
        = Except.ok { fileMeta := [], objects := [], crsAttrs := [] }
    ∧ (handleFileUpload
        { reg := { files := [], nextFileId := 0, nextObjId := 0, onChange := none },
          crs := [], origin := none, status := "" } "bad.xml" DomDoc.errorDoc).reg.files.length
        = 1
    ∧ (handleFileUpload
        { reg := { files := [], nextFileId := 0, nextObjId := 0, onChange := none },
          crs := [], origin := none, status := "" } "bad.xml" DomDoc.errorDoc).status
        = "Loaded bad.xml (0 surfaces)" := by
  refine ⟨rfl, by decide, by decide⟩

/-- C4 counterexample: two callbacks registered through onStoreChange
(handles 1 then 2); the addFile mutation delivers only to the most
recently registered callback — callback 1 is never invoked, so the
delivery list is not [1, 2]. -/
theorem c4_counterexample :
    (((addFile (onStoreChange (onStoreChange
        { files := [], nextFileId := 0, nextObjId := 0, onChange := none } 1) 2)
        "a.xml" [] []).2.2).map Prod.fst = [2]
    ∧ (1 : ℕ) ∉ ((addFile (onStoreChange (onStoreChange
        { files := [], nextFileId := 0, nextObjId := 0, onChange := none } 1) 2)
        "a.xml" [] []).2.2).map Prod.fst)
    ∧ ((addFile (onStoreChange (onStoreChange
        { files := [], nextFileId := 0, nextObjId := 0, onChange := none } 1) 2)
        "a.xml" [] []).2.2).map Prod.fst ≠ [1, 2] := by
  refine ⟨⟨by decide, by decide⟩, by decide⟩

/-- C4 (amended): the Scene Registry keeps a single callback slot:
registering through onStoreChange replaces the previous callback, and
each mutating operation (addFile, removeFile, toggleVisibility on a
known object) synchronously delivers exactly one notification, to the
most recently registered callback only. -/
theorem c4_amended_single_slot (s : SceneState) (c c1 c2 : ℕ)
    (fileName : String) (objs : List InObj) (meta : Meta) (fid oid : ℕ)
    (hc : s.onChange = some c) (hobj : (findObject s oid).isSome = true) :
    ((addFile s fileName objs meta).2.2).map Prod.fst = [c]
    ∧ ((removeFile s fid).2).map Prod.fst = [c]
    ∧ ((toggleVisibility s oid).2.2).map Prod.fst = [c]
    ∧ (onStoreChange (onStoreChange s c1) c2).onChange = some c2 := by
  obtain ⟨obj, hfind⟩ := Option.isSome_iff_exists.mp hobj
  refine ⟨?_, ?_, ?_, rfl⟩
  · simp [addFile, notifList, hc]
  · simp [removeFile, notifList, hc]
  · simp [toggleVisibility, hfind, notifList, hc]

/-- A one-file one-object registry state with callback handle 7, used as
the concrete input of the c4 witness. -/
def c4State : SceneState :=
  ⟨[⟨0, "a.xml", [], [("Surface", [⟨0, "Surface 1", none, [], true⟩])]⟩], 1, 1, some 7⟩

theorem c4_amended_single_slot_witness :
    (c4State.onChange = some 7 ∧ (findObject c4State 0).isSome = true)
    ∧ (((addFile c4State "b.xml" [] []).2.2).map Prod.fst = [7]
      ∧ ((removeFile c4State 0).2).map Prod.fst = [7]
      ∧ ((toggleVisibility c4State 0).2.2).map Prod.fst = [7]
      ∧ (onStoreChange (onStoreChange c4State 1) 2).onChange = some 2) :=
  ⟨⟨by decide, by decide⟩,
    c4_amended_single_slot c4State 7 1 2 "b.xml" [] [] 0 0 (by decide) (by decide)⟩

theorem mem_setInsert (l : List String) (s x : String) :
    x ∈ setInsert l s ↔ x ∈ l ∨ x = s := by
  unfold setInsert
  by_cases hs : s ∈ l
  · simp only [if_pos hs]
    constructor
    · exact Or.inl
    · rintro (hx | rfl)
      · exact hx
      · exact hs
  · simp [if_neg hs]

theorem nodup_setInsert (l : List String) (s : String) (h : l.Nodup) :
    (setInsert l s).Nodup := by
  unfold setInsert
  by_cases hs : s ∈ l
  · simpa [hs]
  · rw [if_neg hs]
    refine List.Nodup.append h (List.nodup_singleton s) ?_
    intro a ha hb
    rw [List.mem_singleton] at hb
    subst hb
    exact hs ha

theorem mem_crsNames_go (entries : List CRSEntry) :
    ∀ (acc : List String) (x : String),
      x ∈ entries.foldl crsStep acc
        ↔ x ∈ acc ∨ ∃ e ∈ entries, e.name = some x ∧ x ≠ "" := by
  induction entries with
  | nil => simp
  | cons e rest ih =>
      intro acc x
      rw [List.foldl_cons, ih]
      have hstep : x ∈ crsStep acc e ↔ x ∈ acc ∨ (e.name = some x ∧ x ≠ "") := by
        cases hn : e.name with
        | none => simp [crsStep, hn]
        | some s =>
            simp only [crsStep, hn]
            by_cases hs : s = ""
            · subst hs
              rw [if_pos rfl]
              constructor
              · exact Or.inl
              · rintro (hx | ⟨hsx, hne⟩)
                · exact hx
                · rw [Option.some_inj] at hsx
                  exact absurd hsx.symm hne
            · rw [if_neg hs, mem_setInsert]
              constructor
              · rintro (hx | rfl)
                · exact Or.inl hx
                · exact Or.inr ⟨rfl, hs⟩
              · rintro (hx | ⟨hsx, hne⟩)
                · exact Or.inl hx
                · rw [Option.some_inj] at hsx
                  subst hsx
                  exact Or.inr rfl
      rw [hstep]
      constructor
      · rintro ((hx | he) | ⟨e2, he2, hn2⟩)
        · exact Or.inl hx
        · exact Or.inr ⟨e, List.mem_cons_self e rest, he⟩
        · exact Or.inr ⟨e2, List.mem_cons_of_mem e he2, hn2⟩
      · rintro (hx | ⟨e2, he2, hn2⟩)
        · exact Or.inl (Or.inl hx)
        · rcases List.mem_cons.mp he2 with rfl | hmem
          · exact Or.inl (Or.inr hn2)
          · exact Or.inr ⟨e2, hmem, hn2⟩

theorem mem_crsNames (entries : List CRSEntry) (x : String) :
    x ∈ crsNames entries ↔ ∃ e ∈ entries, e.name = some x ∧ x ≠ "" := by
  rw [crsNames, mem_crsNames_go]
  simp

theorem nodup_crsNames_go (entries : List CRSEntry) :
    ∀ acc : List String, acc.Nodup → (entries.foldl crsStep acc).Nodup := by
  induction entries with
  | nil => exact fun acc h => h
  | cons e rest ih =>
      intro acc h
      rw [List.foldl_cons]
      refine ih _ ?_
      unfold crsStep
      cases e.name with
      | none => exact h
      | some s =>
          by_cases hs : s = ""
          · simpa [hs]
          · simpa [hs] using nodup_setInsert acc s h

theorem nodup_crsNames (entries : List CRSEntry) : (crsNames entries).Nodup :=
  nodup_crsNames_go entries [] List.nodup_nil

theorem crsHasMissing_eq_false_iff (entries : List CRSEntry) :
    crsHasMissing entries = false ↔ ∀ e ∈ entries, ∃ s, e.name = some s ∧ s ≠ "" := by
  rw [crsHasMissing, List.any_eq_false]
  constructor
  · intro h e he
    have := h e he
    cases hn : e.name with
    | none => rw [hn] at this; simp at this
    | some s =>
        rw [hn] at this
        simp only [decide_eq_true_eq] at this
        exact ⟨s, rfl, this⟩
  · intro h e he
    obtain ⟨s, hs, hne⟩ := h e he
    rw [hs]
    simpa using hne

/-- C3: getCRSName computes exactly the reconciliation the specification
states — null with no files loaded, "No CRS" when every loaded file
lacks a name, the shared name when all loaded files bear one identical
name, and "Mixed CRS" in every other case.  The hypothesis records that
stored names are never the empty string, which setCRS guarantees by
normalising a falsy info.CRS to null. -/
theorem c3_crs_name_reconciliation (entries : List CRSEntry)
    (h : ∀ e ∈ entries, e.name ≠ some "") :
    getCRSName entries = getCRSNameSpec entries := by
  match entries with
  | [] => rfl
  | e0 :: rest =>
      rw [getCRSName, getCRSNameSpec]
      simp only [List.isEmpty_cons, if_neg Bool.false_ne_true]
      by_cases hall : ∀ e ∈ e0 :: rest, e.name = none
      · have hN : crsNames (e0 :: rest) = [] := by
          rw [List.eq_nil_iff_forall_not_mem]
          intro x hx
          obtain ⟨e, he, hn, _⟩ := (mem_crsNames _ x).mp hx
          rw [hall e he] at hn
          exact Option.noConfusion hn
        have hallb : ((e0 :: rest).all fun e => e.name.isNone) = true := by
          rw [List.all_eq_true]
          intro e he
          rw [hall e he]
          rfl
        rw [hN, hallb]
        rfl
      · have hallb : ((e0 :: rest).all fun e => e.name.isNone) = false := by
          cases hb : ((e0 :: rest).all fun e => e.name.isNone) with
          | false => rfl
          | true =>
              exfalso
              exact hall fun e he =>
                Option.isNone_iff_eq_none.mp (List.all_eq_true.mp hb e he)
        rw [hallb]
        simp only [Bool.false_eq_true, if_false]
        push_neg at hall
        obtain ⟨ex, hex, hexn⟩ := hall
        obtain ⟨sx, hsx⟩ := Option.ne_none_iff_exists'.mp hexn
        have hsxne : sx ≠ "" := fun hq => h ex hex (hq ▸ hsx)
        have hxmem : sx ∈ crsNames (e0 :: rest) :=
          (mem_crsNames _ sx).mpr ⟨ex, hex, hsx, hsxne⟩
        by_cases hshared : ((e0 :: rest).all fun e => e.name.isSome && e.name == e0.name)
          = true
        · have h0some : ∃ n0, e0.name = some n0 := by
            have := List.all_eq_true.mp hshared e0 (List.mem_cons_self e0 rest)
            rw [Bool.and_eq_true] at this
            exact Option.isSome_iff_exists.mp this.1
          obtain ⟨n0, hn0⟩ := h0some
          have hn0ne : n0 ≠ "" := fun hq => h e0 (List.mem_cons_self e0 rest) (hq ▸ hn0)
          have hNsing : crsNames (e0 :: rest) = [n0] := by
            have hmem0 : n0 ∈ crsNames (e0 :: rest) :=
              (mem_crsNames _ n0).mpr ⟨e0, List.mem_cons_self e0 rest, hn0, hn0ne⟩
            have huniq : ∀ x ∈ crsNames (e0 :: rest), x = n0 := by
              intro x hx
              obtain ⟨e, he, hn, _⟩ := (mem_crsNames _ x).mp hx
              have := List.all_eq_true.mp hshared e he
              rw [Bool.and_eq_true, beq_iff_eq] at this
              rw [this.2, hn0] at hn
              exact (Option.some_inj.mp hn).symm
            have hnd := nodup_crsNames (e0 :: rest)
            rcases hcn : crsNames (e0 :: rest) with _ | ⟨y, ys⟩
            · rw [hcn] at hmem0; exact absurd hmem0 (List.not_mem_nil n0)
            · rw [hcn] at hmem0 huniq hnd
              have hy : y = n0 := huniq y (List.mem_cons_self y ys)
              subst hy
              cases ys with
              | nil => rfl
              | cons z zs =>
                  have hz : z = y := huniq z (by simp)
                  subst hz
                  rw [List.nodup_cons] at hnd
                  exact absurd (by simp) hnd.1
          have hM : crsHasMissing (e0 :: rest) = false := by
            rw [crsHasMissing_eq_false_iff]
            intro e he
            have := List.all_eq_true.mp hshared e he
            rw [Bool.and_eq_true, beq_iff_eq] at this
            rw [this.2, hn0]
            exact ⟨n0, rfl, hn0ne⟩
          rw [hNsing, hM, hshared, hn0]
          simp
        · have hsharedb : ((e0 :: rest).all fun e => e.name.isSome && e.name == e0.name)
              = false := by
            cases hb : ((e0 :: rest).all fun e => e.name.isSome && e.name == e0.name) with
            | false => rfl
            | true => exact absurd hb hshared
          rw [hsharedb]
          simp only [Bool.false_eq_true, if_false]
          rcases hcn : crsNames (e0 :: rest) with _ | ⟨n, ns⟩
          · rw [hcn] at hxmem
            exact absurd hxmem (List.not_mem_nil sx)
          · cases ns with
            | cons m ms => rfl
            | nil =>
                cases hM : crsHasMissing (e0 :: rest) with
                | true => rfl
                | false =>
                    exfalso
                    apply hshared
                    rw [List.all_eq_true]
                    intro e he
                    obtain ⟨s, hs, hsne⟩ := (crsHasMissing_eq_false_iff _).mp hM e he
                    have hsmem : s ∈ crsNames (e0 :: rest) :=
                      (mem_crsNames _ s).mpr ⟨e, he, hs, hsne⟩
                    rw [hcn] at hsmem
                    have hsn : s = n := by simpa using hsmem
                    obtain ⟨s0, hs0, hs0ne⟩ :=
                      (crsHasMissing_eq_false_iff _).mp hM e0 (List.mem_cons_self e0 rest)
                    have hs0mem : s0 ∈ crsNames (e0 :: rest) :=
                      (mem_crsNames _ s0).mpr ⟨e0, List.mem_cons_self e0 rest, hs0, hs0ne⟩
                    rw [hcn] at hs0mem
                    have hs0n : s0 = n := by simpa using hs0mem
                    rw [hs, hs0, hsn, hs0n]
                    simp

theorem c3_crs_name_reconciliation_witness :
    (∀ e ∈ ([⟨0, some "NAD83", [("CRS", "NAD83")]⟩, ⟨1, none, []⟩] : List CRSEntry),
        e.name ≠ some "")
    ∧ getCRSName [⟨0, some "NAD83", [("CRS", "NAD83")]⟩, ⟨1, none, []⟩]
        = getCRSNameSpec [⟨0, some "NAD83", [("CRS", "NAD83")]⟩, ⟨1, none, []⟩] :=
  ⟨by decide, c3_crs_name_reconciliation _ (by decide)⟩

/-! ## Registry lemmas for the addFile contract -/

/-- All objects of a groups mapping, in group order. -/
def entriesOf (gs : Groups) : List SceneObjE :=
  (gs.map Prod.snd).flatten

/-- All object ids of a groups mapping. -/
def idsOf (gs : Groups) : List ℕ :=
  (entriesOf gs).map SceneObjE.id

/-- All object ids of one registered file. -/
def fileObjIds (f : SceneFileE) : List ℕ :=
  idsOf f.groups

/-- The identity-independent view of a registered object (mesh handle
and metadata). -/
def objView (e : SceneObjE) : Option MeshH × Meta :=
  (e.mesh, e.metadata)

/-- The same view of an incoming object after the registration defaults
are applied. -/
def inView (o : InObj) : Option MeshH × Meta :=
  (o.mesh, o.metadata.getD [])

/-- The display names the addFile defaulting rule assigns to the
objects of one type group, k counting the objects already in the
group. -/
def namesSpec (t : String) : List InObj → ℕ → List String
  | [], _ => []
  | o :: rest, k =>
      jsOrStr o.name (jsOrStr (o.mesh.map MeshH.name) (t ++ " " ++ toString (k + 1)))
        :: namesSpec t rest (k + 1)

theorem lookupGroup_nil (t' : String) : lookupGroup [] t' = [] := rfl

theorem lookupGroup_cons (g : String × List SceneObjE) (gs : Groups) (t' : String) :
    lookupGroup (g :: gs) t' = if g.1 = t' then g.2 else lookupGroup gs t' := by
  by_cases h : g.1 = t'
  · have hb : (g.1 == t') = true := beq_iff_eq.mpr h
    simp [lookupGroup, List.find?, hb, h]
  · have hb : (g.1 == t') = false := by simpa using h
    simp [lookupGroup, List.find?, hb, h]

theorem lookupGroup_groupsInsert (gs : Groups) (t t' : String) (e : SceneObjE) :
    lookupGroup (groupsInsert gs t e) t'
      = if t' = t then lookupGroup gs t' ++ [e] else lookupGroup gs t' := by
  induction gs with
  | nil =>
      by_cases ht : t' = t
      · subst ht
        simp [groupsInsert, lookupGroup_cons, lookupGroup_nil]
      · have ht2 : ¬(t = t') := fun hq => ht hq.symm
        simp [groupsInsert, lookupGroup_cons, lookupGroup_nil, ht, ht2]
  | cons g rest ih =>
      by_cases hg : g.1 = t
      · by_cases ht : t' = t
        · have hgt : g.1 = t' := hg.trans ht.symm
          simp [groupsInsert, hg, lookupGroup_cons, hgt, ht]
        · have hgt : ¬(g.1 = t') := fun hq => ht (hq.symm.trans hg)
          have ht2 : ¬(t = t') := fun hq => ht hq.symm
          simp [groupsInsert, hg, lookupGroup_cons, hgt, ht, ht2]
      · by_cases hgt : g.1 = t'
        · have ht : ¬(t' = t) := fun hq => hg (hgt.trans hq)
          simp [groupsInsert, hg, lookupGroup_cons, hgt, ht]
        · simp [groupsInsert, hg, lookupGroup_cons, hgt, ih]

theorem entriesOf_nil : entriesOf [] = [] := rfl

theorem entriesOf_cons (g : String × List SceneObjE) (gs : Groups) :
    entriesOf (g :: gs) = g.2 ++ entriesOf gs := by
  simp [entriesOf]

theorem entriesOf_groupsInsert (gs : Groups) (t : String) (e : SceneObjE) :
    List.Perm (entriesOf (groupsInsert gs t e)) (e :: entriesOf gs) := by
  induction gs with
  | nil =>
      simp [groupsInsert, entriesOf]
  | cons g rest ih =>
      by_cases hg : g.1 = t
      · rw [groupsInsert, if_pos hg, entriesOf_cons, entriesOf_cons,
          List.append_assoc]
        exact List.perm_middle
      · rw [groupsInsert, if_neg hg, entriesOf_cons, entriesOf_cons]
        exact ((ih.append_left g.2).trans List.perm_middle)

theorem processObjs_snd (objs : List InObj) :
    ∀ (gs : Groups) (n : ℕ), (processObjs objs gs n).2 = n + objs.length := by
  induction objs with
  | nil => intro gs n; simp [processObjs]
  | cons o rest ih =>
      intro gs n
      rw [processObjs, ih]
      simp
      omega

theorem processObjs_ids (objs : List InObj) :
    ∀ (gs : Groups) (n : ℕ),
      List.Perm (idsOf (processObjs objs gs n).1)
        (idsOf gs ++ List.range' n objs.length) := by
  induction objs with
  | nil => intro gs n; simp [processObjs]
  | cons o rest ih =>
      intro gs n
      rw [processObjs]
      refine (ih _ _).trans ?_
      have h1 : List.Perm (idsOf (groupsInsert gs (objType o)
          (mkEntry n o (objType o) (lookupGroup gs (objType o)).length))) (n :: idsOf gs) := by
        have := (entriesOf_groupsInsert gs (objType o)
          (mkEntry n o (objType o) (lookupGroup gs (objType o)).length)).map SceneObjE.id
        simpa [idsOf, mkEntry] using this
      have h2 := h1.append_right (List.range' (n + 1) rest.length)
      have h3 : List.Perm ((n :: idsOf gs) ++ List.range' (n + 1) rest.length)
          (idsOf gs ++ (n :: List.range' (n + 1) rest.length)) :=
        List.perm_middle.symm
      rw [List.length_cons, List.range'_succ]
      exact h2.trans h3

theorem processObjs_visible (objs : List InObj) :
    ∀ (gs : Groups) (n : ℕ), ∀ x ∈ entriesOf (processObjs objs gs n).1,
      x ∈ entriesOf gs ∨ x.visible = true := by
  induction objs with
  | nil => intro gs n x hx; exact Or.inl hx
  | cons o rest ih =>
      intro gs n x hx
      rw [processObjs] at hx
      rcases ih _ _ x hx with hx2 | hv
      · rw [(entriesOf_groupsInsert _ _ _).mem_iff, List.mem_cons] at hx2
        rcases hx2 with rfl | hx3
        · exact Or.inr rfl
        · exact Or.inl hx3
      · exact Or.inr hv

theorem processObjs_view (objs : List InObj) :
    ∀ (gs : Groups) (n : ℕ) (t : String),
      (lookupGroup (processObjs objs gs n).1 t).map objView
        = (lookupGroup gs t).map objView
          ++ (objs.filter fun o => objType o == t).map inView := by
  induction objs with
  | nil => intro gs n t; simp [processObjs]
  | cons o rest ih =>
      intro gs n t
      rw [processObjs, ih, List.filter_cons]
      by_cases hot : objType o = t
      · have hb : (objType o == t) = true := beq_iff_eq.mpr hot
        rw [lookupGroup_groupsInsert, if_pos hot.symm]
        simp [hb, objView, inView, mkEntry]
      · have hb : (objType o == t) = false := by simpa using hot
        rw [lookupGroup_groupsInsert, if_neg fun hq => hot hq.symm]
        simp [hb]

theorem processObjs_names (objs : List InObj) :
    ∀ (gs : Groups) (n : ℕ) (t : String),
      (lookupGroup (processObjs objs gs n).1 t).map SceneObjE.name
        = (lookupGroup gs t).map SceneObjE.name
          ++ namesSpec t (objs.filter fun o => objType o == t)
              (lookupGroup gs t).length := by
  induction objs with
  | nil => intro gs n t; simp [processObjs, namesSpec]
  | cons o rest ih =>
      intro gs n t
      rw [processObjs, ih, List.filter_cons]
      by_cases hot : objType o = t
      · have hb : (objType o == t) = true := beq_iff_eq.mpr hot
        rw [lookupGroup_groupsInsert, if_pos hot.symm]
        subst hot
        simp [hb, namesSpec, mkEntry, List.length_append]
      · have hb : (objType o == t) = false := by simpa using hot
        rw [lookupGroup_groupsInsert, if_neg fun hq => hot hq.symm]
        simp [hb]

/-- C9 counterexample: addFile with a single object that carries no name
but whose mesh is named "Ground" registers the object under the mesh
name, not under the claimed default "Surface 1". -/
theorem c9_counterexample :
    ((lookupGroup (addFile
        { files := [], nextFileId := 0, nextObjId := 0, onChange := none }
        "a.xml" [⟨some "Surface", none, some ⟨"Ground", true⟩, some []⟩] []).1.groups
        "Surface").map SceneObjE.name = ["Ground"])
    ∧ ((lookupGroup (addFile
        { files := [], nextFileId := 0, nextObjId := 0, onChange := none }
        "a.xml" [⟨some "Surface", none, some ⟨"Ground", true⟩, some []⟩] []).1.groups
        "Surface").map SceneObjE.name ≠ ["Surface 1"]) :=
  ⟨by decide, by decide⟩

/-- C9 (amended): for every call addFile(name, objects, fileMeta) on a
well-formed registry state: the new file gets a fresh unique id and is
appended; objects are grouped by their declared type into ordered lists
that preserve the input order within each type; every object gets a
fresh unique id (distinct from each other and from every id already
registered) and visibility true; an object's display name defaults
first to its own name, then to its mesh's non-empty name, then to
"type k" with k its 1-based position in the group (so an object with
neither name becomes "Surface 1" as first of its group); and observers
receive exactly one notification, carrying the file list in which the
new file and all its objects are already registered. -/
theorem c9_addfile_contract (s : SceneState) (fileName : String)
    (objs : List InObj) (meta : Meta) (c : ℕ) (t : String)
    (hf : ∀ f ∈ s.files, f.id < s.nextFileId)
    (ho : ∀ f ∈ s.files, ∀ i ∈ fileObjIds f, i < s.nextObjId)
    (hc : s.onChange = some c) :
    (addFile s fileName objs meta).1.id ∉ s.files.map SceneFileE.id
    ∧ (addFile s fileName objs meta).2.1.files
        = s.files ++ [(addFile s fileName objs meta).1]
    ∧ (fileObjIds (addFile s fileName objs meta).1).Nodup
    ∧ (∀ i ∈ fileObjIds (addFile s fileName objs meta).1,
        ∀ f ∈ s.files, i ∉ fileObjIds f)
    ∧ (∀ e ∈ entriesOf (addFile s fileName objs meta).1.groups, e.visible = true)
    ∧ ((lookupGroup (addFile s fileName objs meta).1.groups t).map objView
        = (objs.filter fun o => objType o == t).map inView)
    ∧ ((lookupGroup (addFile s fileName objs meta).1.groups t).map SceneObjE.name
        = namesSpec t (objs.filter fun o => objType o == t) 0)
    ∧ (addFile s fileName objs meta).2.2
        = [(c, s.files ++ [(addFile s fileName objs meta).1])] := by
  have hids : List.Perm (fileObjIds (addFile s fileName objs meta).1)
      (List.range' s.nextObjId objs.length) := by
    have := processObjs_ids objs [] s.nextObjId
    simpa [fileObjIds, addFile, idsOf, entriesOf] using this
  refine ⟨?_, rfl, ?_, ?_, ?_, ?_, ?_, ?_⟩
  · intro hmem
    rw [List.mem_map] at hmem
    obtain ⟨f, hfmem, hfid⟩ := hmem
    have := hf f hfmem
    rw [hfid] at this
    exact lt_irrefl _ this
  · rw [hids.nodup_iff]
    exact List.nodup_range' _ _
  · intro i hi f hfmem hif
    have hge : s.nextObjId ≤ i := by
      have := hids.mem_iff.mp hi
      exact (List.mem_range'_1.mp this).1
    have hlt : i < s.nextObjId := ho f hfmem i hif
    exact absurd hge (not_le.mpr hlt)
  · intro e he
    have := processObjs_visible objs [] s.nextObjId e (by simpa [addFile] using he)
    rcases this with h0 | hv
    · rw [entriesOf_nil] at h0
      exact absurd h0 (List.not_mem_nil e)
    · exact hv
  · have := processObjs_view objs [] s.nextObjId t
    simpa [addFile, lookupGroup_nil] using this
  · have := processObjs_names objs [] s.nextObjId t
    simpa [addFile, lookupGroup_nil] using this
  · simp [addFile, notifList, hc]

/-- Empty registry with callback handle 5, concrete input of the c9
witness. -/
def c9State : SceneState := ⟨[], 0, 0, some 5⟩

/-- The specification example: an object with a declared type, no name,
a mesh without a name, and empty metadata. -/
def c9Obj : InObj := ⟨some "Surface", none, some ⟨"", true⟩, some []⟩

theorem c9_addfile_contract_witness :
    ((∀ f ∈ c9State.files, f.id < c9State.nextFileId)
      ∧ (∀ f ∈ c9State.files, ∀ i ∈ fileObjIds f, i < c9State.nextObjId)
      ∧ c9State.onChange = some 5)
    ∧ ((addFile c9State "a.xml" [c9Obj] []).1.id ∉ c9State.files.map SceneFileE.id
      ∧ (addFile c9State "a.xml" [c9Obj] []).2.1.files
          = c9State.files ++ [(addFile c9State "a.xml" [c9Obj] []).1]
      ∧ (fileObjIds (addFile c9State "a.xml" [c9Obj] []).1).Nodup
      ∧ (∀ i ∈ fileObjIds (addFile c9State "a.xml" [c9Obj] []).1,
          ∀ f ∈ c9State.files, i ∉ fileObjIds f)
      ∧ (∀ e ∈ entriesOf (addFile c9State "a.xml" [c9Obj] []).1.groups,
          e.visible = true)
      ∧ ((lookupGroup (addFile c9State "a.xml" [c9Obj] []).1.groups "Surface").map
            objView = ([c9Obj].filter fun o => objType o == "Surface").map inView)
      ∧ ((lookupGroup (addFile c9State "a.xml" [c9Obj] []).1.groups "Surface").map
            SceneObjE.name
          = namesSpec "Surface" ([c9Obj].filter fun o => objType o == "Surface") 0)
      ∧ (addFile c9State "a.xml" [c9Obj] []).2.2
          = [(5, c9State.files ++ [(addFile c9State "a.xml" [c9Obj] []).1])]) :=
  ⟨⟨by decide, by decide, by decide⟩,
    c9_addfile_contract c9State "a.xml" [c9Obj] [] 5 "Surface"
      (by decide) (by decide) (by decide)⟩

end LandXMLViewer
